import Mathlib

/-!
A shallow embedding of nanodbc's core: connection, transaction, statement and
result management.

The repository ships the public header `nanodbc.h` (declarations and
contracts), the test suites `basic_test.h` and `mssql_test.cpp`, and a unicode
example; the implementation translation unit `nanodbc.cpp` is not part of the
reviewed tree.  The definitions below therefore model the behaviour of the
missing implementation from the specification document, staying faithful to
its words: flat nested transactions over one shared depth counter, immediate
native commit/rollback, destructors that swallow errors, a batched rowset
cursor with a sticky end flag, typed `get` with the
IndexRange/NullAccess/TypeIncompatible error taxonomy, reference-counted
aliasing of wrapper copies, `affected_rows` reporting -1 when the backend has
no count, and `prepare` on a closed statement raising a programming error.

Definitions come first, then the theorems about them.
-/

namespace Nanodbc

/-- The error taxonomy of nanodbc (`database_error`, `programming_error`,
`index_range_error`, `null_access_error`, `type_incompatible_error`). -/
inductive DbError where
  | databaseError
  | programmingError
  | indexRangeError
  | nullAccessError
  | typeIncompatibleError
deriving DecidableEq, Repr

/-- Modelled from the spec: the native backend behind one connection.  Rows
are abstracted to integers.  `committed` holds durable rows; `pending` holds
the changes made since autocommit was suppressed by an open transaction scope
and not yet ended by a native commit.  `endTranFails` makes the native
commit/rollback call report a diagnostic failure, so that error propagation
versus swallowing can be observed. -/
structure Backend where
  committed : List Int
  pending : List Int
  endTranFails : Bool
deriving DecidableEq, Repr

/-- Connection state per the spec's data model:
`{handle, transaction-depth counter >= 0, autocommit flag, connected bool}`.
`transactions_` is the shared depth counter reported by
`connection::transactions()`. -/
structure Conn where
  connected : Bool
  transactions_ : Nat
  autocommit : Bool
deriving DecidableEq, Repr

/-- A freshly constructed, connected connection: depth 0, autocommit on. -/
def Conn.fresh : Conn :=
  { connected := true, transactions_ := 0, autocommit := true }

/-- The world a transaction guard acts on: the shared connection state plus
the native backend. -/
structure World where
  conn : Conn
  backend : Backend
deriving DecidableEq, Repr

/-- A transaction guard's own state: whether `commit()` or `rollback()` has
already resolved it. -/
structure Guard where
  resolved : Bool
deriving DecidableEq, Repr

/-- Modelled from the spec: the native `SQLEndTran(SQL_COMMIT)` call.  Makes
every pending change durable; fails when the backend reports a diagnostic. -/
def nativeCommit (b : Backend) : Except DbError Backend :=
  if b.endTranFails then .error .databaseError
  else .ok { b with committed := b.committed ++ b.pending, pending := [] }

/-- Modelled from the spec: the native `SQLEndTran(SQL_ROLLBACK)` call.
Discards every pending change; fails when the backend reports a
diagnostic. -/
def nativeRollback (b : Backend) : Except DbError Backend :=
  if b.endTranFails then .error .databaseError
  else .ok { b with pending := [] }

/-- Modelled from the spec: `transaction::transaction(conn)` — construction
disables the connection's autocommit and increments its shared depth counter;
the new guard starts unresolved. -/
def txnBegin (w : World) : World × Guard :=
  ({ w with conn := { w.conn with
        autocommit := false,
        transactions_ := w.conn.transactions_ + 1 } },
   { resolved := false })

/-- Resolving a guard decrements the shared depth counter and — only when
this guard was the outermost live scope (depth drops to 0) — restores
autocommit. -/
def resolveDepth (c : Conn) : Conn :=
  { c with
    transactions_ := c.transactions_ - 1,
    autocommit := if c.transactions_ - 1 = 0 then true else c.autocommit }

/-- Modelled from the spec: `transaction::commit()` — on an unresolved guard
it issues the native commit immediately (not deferred to the outer scope),
marks the guard resolved, decrements depth and restores autocommit only when
outermost.  A native failure propagates as `database_error`.  On a resolved
guard it is a no-op. -/
def txnCommit (g : Guard) (w : World) : Except DbError (Guard × World) :=
  if g.resolved then .ok (g, w)
  else
    match nativeCommit w.backend with
    | .error e => .error e
    | .ok b => .ok ({ resolved := true }, { conn := resolveDepth w.conn, backend := b })

/-- Modelled from the spec: `transaction::rollback()` — declared `throw()` in
the header: it issues the native rollback immediately, swallowing any native
failure, marks the guard resolved, decrements depth and restores autocommit
only when outermost.  On a resolved guard it is a no-op. -/
def txnRollback (g : Guard) (w : World) : Guard × World :=
  if g.resolved then (g, w)
  else
    let b := match nativeRollback w.backend with
      | .ok b => b
      | .error _ => w.backend
    ({ resolved := true }, { conn := resolveDepth w.conn, backend := b })

/-- Modelled from the spec: `transaction::~transaction() throw()` — if the
guard is unresolved, destruction performs an implicit rollback (errors
swallowed: the function is total and returns a plain `World`, never an
exception) and decrements depth; destroying a resolved guard changes
nothing. -/
def txnDestroy (g : Guard) (w : World) : World :=
  if g.resolved then w else (txnRollback g w).2

/-- A guard contributes 1 to the live-scope count while unresolved. -/
def Guard.live (g : Guard) : Nat :=
  if g.resolved then 0 else 1

/-- Number of live guards (not yet resolved) among the guard objects
currently alive on the connection. -/
def liveCount (gs : List Guard) : Nat :=
  (gs.map Guard.live).sum

/-- A configuration: the shared world plus the guard objects currently alive
(in construction order, destroyed guards removed). -/
structure Config where
  world : World
  guards : List Guard
deriving DecidableEq, Repr

/-- The configuration of a freshly constructed connection over backend `b`:
no guards yet. -/
def initConfig (b : Backend) : Config :=
  ⟨⟨Conn.fresh, b⟩, []⟩

/-- One client action on the connection: construct a guard, commit or roll
back an existing guard, or destroy (leave the scope of) an existing guard.
A commit step exists only when `transaction::commit()` returns normally. -/
inductive TxnStep : Config → Config → Prop where
  | tbegin (cfg : Config) :
      TxnStep cfg ⟨(txnBegin cfg.world).1, cfg.guards ++ [(txnBegin cfg.world).2]⟩
  | tcommit (cfg : Config) (i : Nat) (h : i < cfg.guards.length)
      (g' : Guard) (w' : World)
      (hok : txnCommit cfg.guards[i] cfg.world = .ok (g', w')) :
      TxnStep cfg ⟨w', cfg.guards.set i g'⟩
  | trollback (cfg : Config) (i : Nat) (h : i < cfg.guards.length) :
      TxnStep cfg ⟨(txnRollback cfg.guards[i] cfg.world).2,
                   cfg.guards.set i (txnRollback cfg.guards[i] cfg.world).1⟩
  | tdestroy (cfg : Config) (i : Nat) (h : i < cfg.guards.length) :
      TxnStep cfg ⟨txnDestroy cfg.guards[i] cfg.world,
                   cfg.guards.eraseIdx i⟩

/-- Configurations reachable from a fresh connection by guard activity. -/
def Reachable (b : Backend) (cfg : Config) : Prop :=
  Relation.ReflTransGen TxnStep (initConfig b) cfg

/-- The connection invariant of the spec: the depth counter equals the number
of live guards (hence it can never underflow or go negative), and autocommit
is disabled exactly when the depth is positive. -/
def Inv (cfg : Config) : Prop :=
  cfg.world.conn.transactions_ = liveCount cfg.guards ∧
  (cfg.world.conn.autocommit = false ↔ 0 < cfg.world.conn.transactions_)

/-- A concrete backend for witnesses: empty table, native calls succeed. -/
def backend0 : Backend :=
  { committed := [], pending := [], endTranFails := false }

/-- The configuration after opening one guard on a fresh connection and
rolling it back: depth back at 0, autocommit restored, guard resolved. -/
def configDone : Config :=
  ⟨⟨{ connected := true, transactions_ := 0, autocommit := true },
    { committed := [], pending := [], endTranFails := false }⟩,
   [{ resolved := true }]⟩

/-- A concrete world two scopes deep, with one pending change. -/
def world2 : World :=
  ⟨{ connected := true, transactions_ := 2, autocommit := false },
   { committed := [5], pending := [7], endTranFails := false }⟩

/-- A concrete world whose backend fails the native end-transaction call. -/
def world3 : World :=
  ⟨{ connected := true, transactions_ := 1, autocommit := false },
   { committed := [1, 2], pending := [9], endTranFails := true }⟩

/-- A native SQL value stored in a column; the constructor is the native
column type. -/
inductive SqlValue where
  | vint (n : Int)
  | vtext (s : String)
  | vdate (year month day : Int)
deriving DecidableEq, Repr

/-- The closed set of C++ target types `T` of `result::get<T>` that the
claims exercise. -/
inductive CppType where
  | cppInt
  | cppString
  | cppDate
deriving DecidableEq, Repr

/-- Modelled from the spec: conversion of a native value into the requested
C++ type; `none` when the native column type cannot represent `T` (as in the
exception test, where an integer column read as `date`/`timestamp` raises
`type_incompatible_error`, while reading it as a string yields its decimal
text as in the simple test). -/
def convertValue : SqlValue → CppType → Option SqlValue
  | .vint n, .cppInt => some (.vint n)
  | .vint n, .cppString => some (.vtext (toString n))
  | .vint _, .cppDate => none
  | .vtext s, .cppString => some (.vtext s)
  | .vtext _, .cppInt => none
  | .vtext _, .cppDate => none
  | .vdate y m d, .cppDate => some (.vdate y m d)
  | .vdate _ _ _, .cppString => none
  | .vdate _ _ _, .cppInt => none

/-- The current row a result is positioned on: one cell per column, `none`
meaning SQL NULL.  `columns()` is the number of cells. -/
structure RowView where
  cells : List (Option SqlValue)
deriving DecidableEq, Repr

def RowView.columns (r : RowView) : Nat := r.cells.length

/-- Modelled from the spec: `result::get<T>(column)` — `index_range_error`
outside [0, columns()), `null_access_error` on a SQL NULL with no fallback,
`type_incompatible_error` when the native column type cannot represent `T`,
otherwise the converted value. -/
def RowView.get (r : RowView) (column : Int) (t : CppType) :
    Except DbError SqlValue :=
  if column < 0 ∨ (r.columns : Int) ≤ column then .error .indexRangeError
  else
    match r.cells.get? column.toNat with
    | none => .error .indexRangeError
    | some none => .error .nullAccessError
    | some (some v) =>
      match convertValue v t with
      | none => .error .typeIncompatibleError
      | some v1 => .ok v1

/-- Modelled from the spec: `result::get<T>(column, fallback)` — identical,
except that a SQL NULL short-circuits to the fallback without raising. -/
def RowView.getOr (r : RowView) (column : Int) (t : CppType)
    (fallback : SqlValue) : Except DbError SqlValue :=
  if column < 0 ∨ (r.columns : Int) ≤ column then .error .indexRangeError
  else
    match r.cells.get? column.toNat with
    | none => .error .indexRangeError
    | some none => .ok fallback
    | some (some v) =>
      match convertValue v t with
      | none => .error .typeIncompatibleError
      | some v1 => .ok v1

/-- The row of the exception test: an int column holding NULL next to a
non-null int column and a text column. -/
def row0 : RowView :=
  ⟨[none, some (.vint (-10)), some (.vtext "one")]⟩

/-- Rowset cursor state: total row count of the result set, current 1-based
position (0 = before the first fetch), and the sticky end-of-set flag behind
`result::end()`. -/
structure Cursor where
  nrows : Nat
  pos : Nat
  atEnd : Bool
deriving DecidableEq, Repr

/-- The navigation calls of `result`. -/
inductive NavOp where
  | next
  | prior
  | move (row : Int)
  | skip (n : Int)
  | first
  | last
deriving DecidableEq, Repr

/-- Target absolute 1-based row of one navigation call: `move` is absolute,
`skip` is relative to the current position, the rest are as named. -/
def navTarget (c : Cursor) : NavOp → Int
  | .next => (c.pos : Int) + 1
  | .prior => (c.pos : Int) - 1
  | .move row => row
  | .skip n => (c.pos : Int) + n
  | .first => 1
  | .last => (c.nrows : Int)

/-- Modelled from the spec: one navigation call — repositions the cursor when
a row exists at the target position; otherwise returns false and latches the
end flag; once the flag is set every further call is a no-op returning
false. -/
def navigate (c : Cursor) (op : NavOp) : Bool × Cursor :=
  if c.atEnd then (false, c)
  else
    let t := navTarget c op
    if 1 ≤ t ∧ t ≤ (c.nrows : Int) then (true, { c with pos := t.toNat })
    else (false, { c with atEnd := true })

/-- Run a sequence of navigation calls, collecting each call's return
value. -/
def runNav (c : Cursor) : List NavOp → List Bool × Cursor
  | [] => ([], c)
  | op :: ops =>
    let r := navigate c op
    let rest := runNav r.2 ops
    (r.1 :: rest.1, rest.2)

/-- The cursor of the simple test after its fourth row, about to run off the
end of the result set. -/
def cursor4 : Cursor := { nrows := 4, pos := 4, atEnd := false }

/-- Modelled from the spec: one execution row per bound-array slot — batch
execution of a prepared single-placeholder insert performs the insert once
per slot, in slot order, within one call. -/
def execBatchRows (table : List Int) : List Int → List Int
  | [] => table
  | v :: vs => execBatchRows (table ++ [v]) vs

/-- Modelled from the spec: `statement::execute(batch_operations)` on a
prepared insert whose single placeholder has a caller-owned array bound to
it: the first `batchOps` array slots each become one execution row. -/
def executeBatchInsert (table : List Int) (values : List Int)
    (batchOps : Nat) : List Int :=
  execBatchRows table (values.take batchOps)

/-- A `connection` wrapper object: per the design notes, copies share one
reference-counted implementation object, so a wrapper is a handle (an index
into the heap of implementation objects), and copying a wrapper copies the
handle, never the pointee. -/
structure ConnHandle where
  id : Nat
deriving DecidableEq, Repr

/-- Modelled from the spec: the copy constructor of `connection` — a cheap
alias of the same shared implementation, never an independent clone. -/
def copyConn (c : ConnHandle) : ConnHandle := c

/-- `connection::connected()` read through a handle. -/
def connectedVia (heap : List Conn) (c : ConnHandle) : Bool :=
  match heap.get? c.id with
  | some impl => impl.connected
  | none => false

/-- Modelled from the spec: `connection::disconnect()` through a handle
mutates the one shared implementation object in place. -/
def disconnectVia (heap : List Conn) (c : ConnHandle) : List Conn :=
  match heap.get? c.id with
  | some impl => heap.set c.id { impl with connected := false }
  | none => heap

/-- A `result` wrapper object: same reference-counted aliasing as
`ConnHandle`, over the heap of cursor implementation objects. -/
structure ResultHandle where
  id : Nat
deriving DecidableEq, Repr

/-- Modelled from the spec: the copy constructor of `result` — all copies
refer to the same underlying result set. -/
def copyResult (r : ResultHandle) : ResultHandle := r

/-- `result::next()` through a handle: advances the one shared cursor. -/
def resultNextVia (heap : List Cursor) (r : ResultHandle) :
    Bool × List Cursor :=
  match heap.get? r.id with
  | some cur => ((navigate cur .next).1, heap.set r.id (navigate cur .next).2)
  | none => (false, heap)

/-- The cursor observed through a handle. -/
def cursorVia (heap : List Cursor) (r : ResultHandle) : Option Cursor :=
  heap.get? r.id

/-- Statement state: whether it is open (associated to a connection) and
whether a query has been compiled into it. -/
structure StmtState where
  isOpen : Bool
  prepared : Bool
deriving DecidableEq, Repr

/-- Modelled from the spec: `statement::prepare(query)` without a connection
argument — requires the statement to already be open; fails with
`programming_error` when it is closed and no connection is supplied. -/
def stmtPrepare (s : StmtState) (q : String) : Except DbError StmtState :=
  if s.isOpen then .ok { s with prepared := true }
  else .error .programmingError

/-- A `statement` wrapper object: same reference-counted aliasing as
`ConnHandle`, over the heap of statement implementation objects. -/
structure StmtHandle where
  id : Nat
deriving DecidableEq, Repr

/-- Modelled from the spec: the copy constructor of `statement` — a cheap
alias of the same shared implementation. -/
def copyStmt (s : StmtHandle) : StmtHandle := s

/-- `statement::prepare(query)` through a handle: mutates the one shared
implementation object (kept unchanged when prepare fails). -/
def stmtPrepareVia (heap : List StmtState) (s : StmtHandle) (q : String) :
    List StmtState :=
  match heap.get? s.id with
  | some impl =>
    match stmtPrepare impl q with
    | .ok impl1 => heap.set s.id impl1
    | .error _ => heap
  | none => heap

/-- Whether the statement observed through a handle has been prepared. -/
def preparedVia (heap : List StmtState) (s : StmtHandle) : Bool :=
  match heap.get? s.id with
  | some impl => impl.prepared
  | none => false

/-- The statement kinds the affected-rows tests exercise. -/
inductive SqlOp where
  | selectAll
  | createTable
  | insertRow (v : Int)
  | deleteAll
deriving DecidableEq, Repr

/-- Modelled from the spec: executing one operation against the backend table
yields the new table plus the backend's reported row count — `none` when the
backend cannot report one (SELECT statements and DDL), the count of rows
actually inserted or deleted otherwise. -/
def execOp (op : SqlOp) (table : List Int) : List Int × Option Nat :=
  match op with
  | .selectAll => (table, none)
  | .createTable => (table, none)
  | .insertRow v => (table ++ [v], some 1)
  | .deleteAll => ([], some table.length)

/-- Modelled from the spec: `statement::affected_rows()` — the backend's
reported count when available, otherwise -1. -/
def affected_rows (reported : Option Nat) : Int :=
  match reported with
  | some n => (n : Int)
  | none => -1

/-- A prepared statement: the compiled plan's output rows are fixed at
prepare time; executing the read-only plan does not change the database. -/
structure PreparedQuery where
  prepared : Bool
  planRows : List Int
deriving DecidableEq, Repr

/-- One execution's product: the decoded rows plus a fresh cursor over
them. -/
structure ExecResult where
  rows : List Int
  cursor : Cursor
deriving DecidableEq, Repr

/-- Modelled from the spec: `statement::execute()` — requires a prepared
statement, produces a fresh result set over the plan's rows and leaves the
statement prepared; it consults no earlier result's state (its input is the
statement alone), so earlier results need not be exhausted. -/
def stmtExecute (s : PreparedQuery) : Except DbError (ExecResult × PreparedQuery) :=
  if s.prepared then
    .ok (⟨s.planRows, ⟨s.planRows.length, 0, false⟩⟩, s)
  else .error .programmingError

/-- Successive executions of one statement, threading its state. -/
def execSeq (s : PreparedQuery) : Nat → List (Except DbError ExecResult)
  | 0 => []
  | n + 1 =>
    match stmtExecute s with
    | .error e => [.error e]
    | .ok (r, s1) => .ok r :: execSeq s1 n

/-!
Theorems.  First the helper lemmas about the transaction machinery, then one
theorem (plus witness) per specification claim.
-/

theorem liveCount_nil : liveCount [] = 0 := rfl

theorem liveCount_cons (g : Guard) (gs : List Guard) :
    liveCount (g :: gs) = g.live + liveCount gs := by
  simp [liveCount]

theorem liveCount_append (gs : List Guard) (g : Guard) :
    liveCount (gs ++ [g]) = liveCount gs + g.live := by
  simp [liveCount]

theorem liveCount_set (gs : List Guard) (i : Nat) (g' : Guard) (h : i < gs.length) :
    liveCount (gs.set i g') + gs[i].live = liveCount gs + g'.live := by
  induction gs generalizing i with
  | nil => simp at h
  | cons a as ih =>
    cases i with
    | zero =>
      simp only [List.set, List.getElem_cons_zero, liveCount_cons]
      omega
    | succ n =>
      have hn : n < as.length := by simpa using h
      have := ih n hn
      simp only [List.set, List.getElem_cons_succ, liveCount_cons]
      omega

theorem liveCount_eraseIdx (gs : List Guard) (i : Nat) (h : i < gs.length) :
    liveCount (gs.eraseIdx i) + gs[i].live = liveCount gs := by
  induction gs generalizing i with
  | nil => simp at h
  | cons a as ih =>
    cases i with
    | zero =>
      simp only [List.eraseIdx, List.getElem_cons_zero, liveCount_cons]
      omega
    | succ n =>
      have hn : n < as.length := by simpa using h
      have := ih n hn
      simp only [List.eraseIdx, List.getElem_cons_succ, liveCount_cons]
      omega

theorem resolveDepth_spec (c : Conn) (hd : 0 < c.transactions_)
    (hac : c.autocommit = false ↔ 0 < c.transactions_) :
    (resolveDepth c).transactions_ = c.transactions_ - 1 ∧
    ((resolveDepth c).autocommit = false ↔ 0 < (resolveDepth c).transactions_) := by
  unfold resolveDepth
  refine ⟨rfl, ?_⟩
  by_cases h : c.transactions_ - 1 = 0
  · simp [h]
  · have : c.autocommit = false := hac.mpr hd
    simp [h, this]
    omega

theorem inv_init (b : Backend) : Inv (initConfig b) := by
  simp [Inv, initConfig, Conn.fresh, liveCount_nil]

theorem txnCommit_resolved (g : Guard) (w : World) (hres : g.resolved = true) :
    txnCommit g w = .ok (g, w) := by
  simp [txnCommit, hres]

theorem txnCommit_eq (g : Guard) (w : World) (hres : g.resolved = false)
    (hEnd : w.backend.endTranFails = false) :
    txnCommit g w = .ok ({ resolved := true },
      { conn := resolveDepth w.conn,
        backend := { w.backend with
          committed := w.backend.committed ++ w.backend.pending,
          pending := [] } }) := by
  simp [txnCommit, nativeCommit, hres, hEnd]

theorem txnCommit_fail (g : Guard) (w : World) (hres : g.resolved = false)
    (hEnd : w.backend.endTranFails = true) :
    txnCommit g w = .error .databaseError := by
  simp [txnCommit, nativeCommit, hres, hEnd]

theorem txnRollback_resolved (g : Guard) (w : World) (hres : g.resolved = true) :
    txnRollback g w = (g, w) := by
  simp [txnRollback, hres]

theorem txnRollback_eq (g : Guard) (w : World) (hres : g.resolved = false) :
    txnRollback g w =
      ({ resolved := true },
       { conn := resolveDepth w.conn,
         backend := if w.backend.endTranFails then w.backend
                    else { w.backend with pending := [] } }) := by
  by_cases hEnd : w.backend.endTranFails <;>
    simp [txnRollback, nativeRollback, hres, hEnd]

theorem live_eq_zero (g : Guard) (hres : g.resolved = true) : g.live = 0 := by
  simp [Guard.live, hres]

theorem live_eq_one (g : Guard) (hres : g.resolved = false) : g.live = 1 := by
  simp [Guard.live, hres]

theorem txnDestroy_resolved (g : Guard) (w : World) (hres : g.resolved = true) :
    txnDestroy g w = w := by
  rw [txnDestroy, hres]
  simp

theorem txnDestroy_unresolved (g : Guard) (w : World) (hres : g.resolved = false) :
    txnDestroy g w = (txnRollback g w).2 := by
  rw [txnDestroy, hres]
  simp

theorem inv_step {cfg cfg' : Config} (hinv : Inv cfg) (hstep : TxnStep cfg cfg') :
    Inv cfg' := by
  obtain ⟨hdepth, hac⟩ := hinv
  cases hstep with
  | tbegin =>
    refine ⟨?_, ?_⟩
    · simp [txnBegin, liveCount_append, Guard.live, hdepth]
    · simp [txnBegin]
  | tcommit i h g' w' hok =>
    by_cases hres : cfg.guards[i].resolved = true
    · rw [txnCommit_resolved _ _ hres] at hok
      simp only [Except.ok.injEq, Prod.mk.injEq] at hok
      obtain ⟨hg', hw'⟩ := hok
      subst hw'
      subst hg'
      have hset := liveCount_set cfg.guards i cfg.guards[i] h
      exact ⟨by simp only [hdepth]; omega, hac⟩
    · have hres' : cfg.guards[i].resolved = false := by
        simpa using hres
      cases hEnd : cfg.world.backend.endTranFails with
      | true =>
        rw [txnCommit_fail _ _ hres' hEnd] at hok
        exact absurd hok (by simp)
      | false =>
        rw [txnCommit_eq _ _ hres' hEnd] at hok
        simp only [Except.ok.injEq, Prod.mk.injEq] at hok
        obtain ⟨hg', hw'⟩ := hok
        subst hw'
        subst hg'
        have hd : 0 < cfg.world.conn.transactions_ := by
          have herase := liveCount_eraseIdx cfg.guards i h
          have h1 := live_eq_one _ hres'
          simp only [hdepth]; omega
        obtain ⟨hrd, hriff⟩ := resolveDepth_spec cfg.world.conn hd hac
        refine ⟨?_, hriff⟩
        have hset := liveCount_set cfg.guards i { resolved := true } h
        have h1 := live_eq_one _ hres'
        have h0 : Guard.live { resolved := true } = 0 := rfl
        have herase := liveCount_eraseIdx cfg.guards i h
        simp only [hrd, hdepth]
        omega
  | trollback i h =>
    by_cases hres : cfg.guards[i].resolved = true
    · rw [txnRollback_resolved _ _ hres]
      have hset := liveCount_set cfg.guards i cfg.guards[i] h
      exact ⟨by simp only [hdepth]; omega, hac⟩
    · have hres' : cfg.guards[i].resolved = false := by
        simpa using hres
      rw [txnRollback_eq _ _ hres']
      have hd : 0 < cfg.world.conn.transactions_ := by
        have herase := liveCount_eraseIdx cfg.guards i h
        have h1 := live_eq_one _ hres'
        simp only [hdepth]; omega
      obtain ⟨hrd, hriff⟩ := resolveDepth_spec cfg.world.conn hd hac
      refine ⟨?_, hriff⟩
      have hset := liveCount_set cfg.guards i { resolved := true } h
      have h1 := live_eq_one _ hres'
      have h0 : Guard.live { resolved := true } = 0 := rfl
      have herase := liveCount_eraseIdx cfg.guards i h
      simp only [hrd, hdepth]
      omega
  | tdestroy i h =>
    by_cases hres : cfg.guards[i].resolved = true
    · rw [txnDestroy_resolved _ _ hres]
      have herase := liveCount_eraseIdx cfg.guards i h
      have h0 := live_eq_zero _ hres
      exact ⟨by simp only [hdepth]; omega, hac⟩
    · have hres' : cfg.guards[i].resolved = false := by
        simpa using hres
      rw [txnDestroy_unresolved _ _ hres', txnRollback_eq _ _ hres']
      have hd : 0 < cfg.world.conn.transactions_ := by
        have herase := liveCount_eraseIdx cfg.guards i h
        have h1 := live_eq_one _ hres'
        simp only [hdepth]; omega
      obtain ⟨hrd, hriff⟩ := resolveDepth_spec cfg.world.conn hd hac
      refine ⟨?_, hriff⟩
      have herase := liveCount_eraseIdx cfg.guards i h
      have h1 := live_eq_one _ hres'
      simp only [hrd, hdepth]
      omega

theorem inv_reachable {b : Backend} {cfg : Config} (h : Reachable b cfg) :
    Inv cfg := by
  induction h with
  | refl => exact inv_init b
  | tail _ hstep ih => exact inv_step ih hstep

theorem liveCount_eq_zero (gs : List Guard) (hall : ∀ g ∈ gs, g.resolved = true) :
    liveCount gs = 0 := by
  induction gs with
  | nil => rfl
  | cons a as ih =>
    have ha := hall a (by simp)
    rw [liveCount_cons, live_eq_zero a ha, ih (fun g hg => hall g (by simp [hg]))]

/-- C1: for every connection, `transactions()` is 0 immediately after
construction, and 0 again once every transaction guard opened on it has been
resolved (by commit or rollback) or destroyed.  At every reachable point the
depth counter equals the number of live guards, so it never underflows its
`size_t` representation and is never negative. -/
theorem transactions_zero_after_guards_resolved (b : Backend) (cfg : Config)
    (hreach : Reachable b cfg) :
    Conn.fresh.transactions_ = 0 ∧
    cfg.world.conn.transactions_ = liveCount cfg.guards ∧
    (0 : Int) ≤ (cfg.world.conn.transactions_ : Int) ∧
    ((∀ g ∈ cfg.guards, g.resolved = true) → cfg.world.conn.transactions_ = 0) := by
  have hinv := inv_reachable hreach
  refine ⟨rfl, hinv.1, Int.natCast_nonneg _, fun hall => ?_⟩
  rw [hinv.1, liveCount_eq_zero cfg.guards hall]

theorem reach_configDone : Reachable backend0 configDone := by
  have s1 := TxnStep.tbegin (initConfig backend0)
  have s2 := TxnStep.trollback
    ⟨(txnBegin (initConfig backend0).world).1,
     (initConfig backend0).guards ++ [(txnBegin (initConfig backend0).world).2]⟩
    0 (by simp)
  exact Relation.ReflTransGen.tail (Relation.ReflTransGen.single s1) s2

/-- Witness for C1 on the concrete two-step trace begin-then-rollback. -/
theorem transactions_zero_after_guards_resolved_witness :
    Conn.fresh.transactions_ = 0 ∧
    configDone.world.conn.transactions_ = liveCount configDone.guards ∧
    (0 : Int) ≤ (configDone.world.conn.transactions_ : Int) ∧
    ((∀ g ∈ configDone.guards, g.resolved = true) →
      configDone.world.conn.transactions_ = 0) :=
  transactions_zero_after_guards_resolved backend0 configDone reach_configDone

/-- C2: nested guards on one connection are flat.  Construction disables
autocommit and increments the one shared depth counter; `commit()` and
`rollback()` issue the native end-transaction operation immediately (the
pending changes become durable or are discarded at the moment of the call,
not when the outer scope resolves), mark the guard resolved, and restore
autocommit only when the resolving guard was the outermost live scope,
preserving the invariant that autocommit is disabled exactly when the depth
is positive. -/
theorem flat_nested_transaction_scopes (w : World) (g : Guard)
    (hg : g.resolved = false) (hEnd : w.backend.endTranFails = false)
    (hd : 0 < w.conn.transactions_) (hac : w.conn.autocommit = false) :
    ((txnBegin w).1.conn.transactions_ = w.conn.transactions_ + 1 ∧
     (txnBegin w).1.conn.autocommit = false) ∧
    (∃ w1, txnCommit g w = .ok ({ resolved := true }, w1) ∧
       w1.backend.committed = w.backend.committed ++ w.backend.pending ∧
       w1.backend.pending = [] ∧
       w1.conn.transactions_ = w.conn.transactions_ - 1 ∧
       (w1.conn.autocommit = false ↔ 0 < w1.conn.transactions_)) ∧
    ((txnRollback g w).1.resolved = true ∧
     ((txnRollback g w).2).backend.pending = [] ∧
     ((txnRollback g w).2).backend.committed = w.backend.committed ∧
     ((txnRollback g w).2).conn.transactions_ = w.conn.transactions_ - 1 ∧
     (((txnRollback g w).2).conn.autocommit = false ↔
       0 < ((txnRollback g w).2).conn.transactions_)) := by
  have hiff : w.conn.autocommit = false ↔ 0 < w.conn.transactions_ :=
    ⟨fun _ => hd, fun _ => hac⟩
  obtain ⟨hrd, hriff⟩ := resolveDepth_spec w.conn hd hiff
  refine ⟨⟨rfl, rfl⟩, ?_, ?_⟩
  · exact ⟨_, txnCommit_eq g w hg hEnd, rfl, rfl, hrd, hriff⟩
  · rw [txnRollback_eq g w hg]
    exact ⟨rfl, by simp [hEnd], by simp [hEnd], hrd, hriff⟩

/-- Witness for C2: an inner (not outermost) guard on `world2`. -/
theorem flat_nested_transaction_scopes_witness :
    ((txnBegin world2).1.conn.transactions_ = world2.conn.transactions_ + 1 ∧
     (txnBegin world2).1.conn.autocommit = false) ∧
    (∃ w1, txnCommit { resolved := false } world2 = .ok ({ resolved := true }, w1) ∧
       w1.backend.committed = world2.backend.committed ++ world2.backend.pending ∧
       w1.backend.pending = [] ∧
       w1.conn.transactions_ = world2.conn.transactions_ - 1 ∧
       (w1.conn.autocommit = false ↔ 0 < w1.conn.transactions_)) ∧
    ((txnRollback { resolved := false } world2).1.resolved = true ∧
     ((txnRollback { resolved := false } world2).2).backend.pending = [] ∧
     ((txnRollback { resolved := false } world2).2).backend.committed
        = world2.backend.committed ∧
     ((txnRollback { resolved := false } world2).2).conn.transactions_
        = world2.conn.transactions_ - 1 ∧
     (((txnRollback { resolved := false } world2).2).conn.autocommit = false ↔
       0 < ((txnRollback { resolved := false } world2).2).conn.transactions_)) :=
  flat_nested_transaction_scopes world2 { resolved := false } rfl rfl
    (by decide) rfl

/-- C3: destroying a guard on which neither `commit()` nor `rollback()` was
called performs an implicit rollback (the committed rows are untouched and
the pending changes are discarded when the native call succeeds) and
decrements the depth counter; a native failure during this implicit rollback
is swallowed — `txnDestroy` is a total function into `World`, and even with a
failing backend it returns normally with the depth decremented. -/
theorem destructor_implicit_rollback (w : World) (g : Guard)
    (hg : g.resolved = false) :
    (txnDestroy g w).conn.transactions_ = w.conn.transactions_ - 1 ∧
    (txnDestroy g w).backend.committed = w.backend.committed ∧
    (w.backend.endTranFails = false → (txnDestroy g w).backend.pending = []) ∧
    (w.backend.endTranFails = true →
      txnDestroy g w = { conn := resolveDepth w.conn, backend := w.backend }) := by
  rw [txnDestroy_unresolved g w hg, txnRollback_eq g w hg]
  by_cases hEnd : w.backend.endTranFails <;> simp [hEnd, resolveDepth]

/-- Witness for C3 on a backend whose rollback call fails: the destructor
still returns normally with the depth decremented. -/
theorem destructor_implicit_rollback_witness :
    (txnDestroy { resolved := false } world3).conn.transactions_
        = world3.conn.transactions_ - 1 ∧
    (txnDestroy { resolved := false } world3).backend.committed
        = world3.backend.committed ∧
    (world3.backend.endTranFails = false →
      (txnDestroy { resolved := false } world3).backend.pending = []) ∧
    (world3.backend.endTranFails = true →
      txnDestroy { resolved := false } world3
        = { conn := resolveDepth world3.conn, backend := world3.backend }) :=
  destructor_implicit_rollback world3 { resolved := false } rfl

/-- C4: `get<T>(column)` fails with `index_range_error` outside
[0, columns()), with `null_access_error` on a NULL cell without fallback, and
with `type_incompatible_error` when the native column type cannot represent
`T`; `get<T>(column, fallback)` on a NULL cell returns the fallback without
raising. -/
theorem get_error_taxonomy (r : RowView) (column : Int) (t : CppType)
    (fb : SqlValue) :
    ((column < 0 ∨ (r.columns : Int) ≤ column) →
       r.get column t = .error .indexRangeError ∧
       r.getOr column t fb = .error .indexRangeError) ∧
    ((r.cells.get? column.toNat = some none ∧ 0 ≤ column) →
       r.get column t = .error .nullAccessError ∧
       r.getOr column t fb = .ok fb) ∧
    (∀ v, (r.cells.get? column.toNat = some (some v) ∧ 0 ≤ column ∧
           convertValue v t = none) →
       r.get column t = .error .typeIncompatibleError ∧
       r.getOr column t fb = .error .typeIncompatibleError) := by
  refine ⟨fun h => ?_, fun h => ?_, fun v h => ?_⟩
  · constructor <;> simp [RowView.get, RowView.getOr, h]
  · obtain ⟨hcell, hlo⟩ := h
    have hin : ¬(column < 0 ∨ (r.columns : Int) ≤ column) := by
      rintro (hneg | hhi)
      · omega
      · have : r.cells.get? column.toNat = none := by
          rw [List.get?_eq_none]
          simp only [RowView.columns] at hhi
          omega
        rw [this] at hcell
        exact absurd hcell (by simp)
    rw [List.get?_eq_getElem?] at hcell
    constructor <;> simp [RowView.get, RowView.getOr, hin, hcell]
  · obtain ⟨hcell, hlo, hconv⟩ := h
    have hin : ¬(column < 0 ∨ (r.columns : Int) ≤ column) := by
      rintro (hneg | hhi)
      · omega
      · have : r.cells.get? column.toNat = none := by
          rw [List.get?_eq_none]
          simp only [RowView.columns] at hhi
          omega
        rw [this] at hcell
        exact absurd hcell (by simp)
    rw [List.get?_eq_getElem?] at hcell
    constructor <;> simp [RowView.get, RowView.getOr, hin, hcell, hconv]

/-- Witness for C4: index 42 out of range; NULL int cell with and without
fallback; int cell read as a date. -/
theorem get_error_taxonomy_witness :
    row0.get 42 .cppInt = .error .indexRangeError ∧
    row0.get 0 .cppInt = .error .nullAccessError ∧
    row0.getOr 0 .cppInt (.vint (-1)) = .ok (.vint (-1)) ∧
    row0.get 1 .cppDate = .error .typeIncompatibleError :=
  ⟨((get_error_taxonomy row0 42 .cppInt (.vint (-1))).1 (by decide)).1,
   ((get_error_taxonomy row0 0 .cppInt (.vint (-1))).2.1 ⟨by decide, by decide⟩).1,
   ((get_error_taxonomy row0 0 .cppInt (.vint (-1))).2.1 ⟨by decide, by decide⟩).2,
   ((get_error_taxonomy row0 1 .cppDate (.vint (-1))).2.2 (.vint (-10))
      ⟨by decide, by decide, by decide⟩).1⟩

theorem navigate_atEnd (c : Cursor) (op : NavOp) (h : c.atEnd = true) :
    navigate c op = (false, c) := by
  simp [navigate, h]

theorem runNav_atEnd (c : Cursor) (ops : List NavOp) (h : c.atEnd = true) :
    runNav c ops = (List.replicate ops.length false, c) := by
  induction ops with
  | nil => simp [runNav]
  | cons op ops ih => simp [runNav, navigate_atEnd c op h, ih, List.replicate]

/-- C5: once any navigation call returns false because no row exists at the
target position, `end()` is true, and every subsequent navigation call
returns false with `end()` remaining true — the cursor is never
resurrected. -/
theorem navigation_no_resurrection (c : Cursor) (op : NavOp) (ops : List NavOp)
    (hfail : (navigate c op).1 = false) :
    ((navigate c op).2).atEnd = true ∧
    (runNav (navigate c op).2 ops).1 = List.replicate ops.length false ∧
    ((runNav (navigate c op).2 ops).2).atEnd = true := by
  have hend : ((navigate c op).2).atEnd = true := by
    by_cases hc : c.atEnd = true
    · rw [navigate_atEnd c op hc]
      exact hc
    · have hc1 : c.atEnd = false := by simpa using hc
      by_cases ht : 1 ≤ navTarget c op ∧ navTarget c op ≤ (c.nrows : Int)
      · exfalso
        rw [navigate] at hfail
        rw [hc1] at hfail
        simp [ht] at hfail
      · rw [navigate, hc1]
        simp [ht]
  rw [runNav_atEnd _ ops hend]
  exact ⟨hend, rfl, hend⟩

/-- Witness for C5: a fifth `next()` on a four-row result returns false, and
`prior()`, `move(1)` and `first()` afterwards all keep returning false with
`end()` still true. -/
theorem navigation_no_resurrection_witness :
    ((navigate cursor4 .next).2).atEnd = true ∧
    (runNav (navigate cursor4 .next).2 [.prior, .move 1, .first]).1
      = List.replicate 3 false ∧
    ((runNav (navigate cursor4 .next).2 [.prior, .move 1, .first]).2).atEnd
      = true :=
  navigation_no_resurrection cursor4 .next [.prior, .move 1, .first] (by decide)

theorem execBatchRows_eq (vs : List Int) :
    ∀ table, execBatchRows table vs = table ++ vs := by
  induction vs with
  | nil => intro table; simp [execBatchRows]
  | cons v vs ih =>
    intro table
    rw [execBatchRows, ih]
    simp

/-- C6: binding a caller-owned array of N values to the one placeholder of a
prepared insert and executing it with `batch_operations = N` inserts exactly
N rows whose values are the array's slots 0..N-1 in order, in a single
execute call. -/
theorem batch_insert_inserts_n_rows (table values : List Int) (n : Nat)
    (h1 : 1 ≤ n) (h2 : values.length = n) :
    executeBatchInsert table values n = table ++ values ∧
    (executeBatchInsert table values n).length = table.length + n ∧
    (∀ i, i < n →
      (executeBatchInsert table values n).get? (table.length + i)
        = values.get? i) := by
  have htake : values.take n = values := List.take_of_length_le (le_of_eq h2)
  have heq : executeBatchInsert table values n = table ++ values := by
    rw [executeBatchInsert, htake, execBatchRows_eq]
  refine ⟨heq, ?_, fun i hi => ?_⟩
  · rw [heq]
    simp [h2]
  · rw [heq, List.get?_append_right (Nat.le_add_right _ _)]
    congr 1
    omega

/-- Witness for C6: the transaction test's batch of values 0..9 appended to
an empty table. -/
theorem batch_insert_inserts_n_rows_witness :
    executeBatchInsert [] [0, 1, 2, 3, 4, 5, 6, 7, 8, 9] 10
      = ([] : List Int) ++ [0, 1, 2, 3, 4, 5, 6, 7, 8, 9] ∧
    (executeBatchInsert [] [0, 1, 2, 3, 4, 5, 6, 7, 8, 9] 10).length
      = ([] : List Int).length + 10 ∧
    (∀ i, i < 10 →
      (executeBatchInsert [] [0, 1, 2, 3, 4, 5, 6, 7, 8, 9] 10).get?
          (([] : List Int).length + i)
        = [0, 1, 2, 3, 4, 5, 6, 7, 8, 9].get? i) :=
  batch_insert_inserts_n_rows ([] : List Int) [0, 1, 2, 3, 4, 5, 6, 7, 8, 9] 10
    (by decide) (by decide)

/-- C7: copies of `connection` / `statement` / `result` objects are aliases
of one shared underlying resource, not independent clones: a copy is the
same handle; disconnecting through either alias makes `connected()` false
through the other; preparing through a copied statement handle is observed
through the original; and advancing a copied result's cursor advances the
same cursor the original observes. -/
theorem copies_are_aliases (heap : List Conn) (c : ConnHandle)
    (h : c.id < heap.length)
    (cursHeap : List Cursor) (r : ResultHandle) (hr : r.id < cursHeap.length)
    (stmtHeap : List StmtState) (st : StmtHandle) (q : String)
    (hs : st.id < stmtHeap.length) (hopen : stmtHeap[st.id].isOpen = true) :
    copyConn c = c ∧
    connectedVia (disconnectVia heap c) (copyConn c) = false ∧
    connectedVia (disconnectVia heap (copyConn c)) c = false ∧
    copyResult r = r ∧
    cursorVia (resultNextVia cursHeap (copyResult r)).2 r
      = some (navigate cursHeap[r.id] .next).2 ∧
    copyStmt st = st ∧
    preparedVia (stmtPrepareVia stmtHeap (copyStmt st) q) st = true := by
  have hc : heap.get? c.id = some heap[c.id] := List.get?_eq_get h
  have hcur : cursHeap.get? r.id = some cursHeap[r.id] := List.get?_eq_get hr
  have hst : stmtHeap.get? st.id = some stmtHeap[st.id] := List.get?_eq_get hs
  have hdis : connectedVia (disconnectVia heap c) c = false := by
    rw [disconnectVia, hc]
    rw [connectedVia, List.get?_set_eq]
    simp [h]
  refine ⟨rfl, hdis, hdis, rfl, ?_, rfl, ?_⟩
  · rw [copyResult, resultNextVia, hcur]
    rw [cursorVia, List.get?_set_eq]
    simp [hr]
  · rw [copyStmt, stmtPrepareVia, hst]
    simp [stmtPrepare, hopen, preparedVia, List.get?_set_eq, hs]

/-- Witness for C7: one two-connection heap, one two-cursor heap, one
one-statement heap, aliasing observed on the first entry of each. -/
theorem copies_are_aliases_witness :
    copyConn ⟨0⟩ = ⟨0⟩ ∧
    connectedVia (disconnectVia [Conn.fresh, Conn.fresh] ⟨0⟩) (copyConn ⟨0⟩)
      = false ∧
    connectedVia (disconnectVia [Conn.fresh, Conn.fresh] (copyConn ⟨0⟩)) ⟨0⟩
      = false ∧
    copyResult ⟨0⟩ = ⟨0⟩ ∧
    cursorVia (resultNextVia [cursor4, cursor4] (copyResult ⟨0⟩)).2 ⟨0⟩
      = some (navigate [cursor4, cursor4][0] .next).2 ∧
    copyStmt ⟨0⟩ = ⟨0⟩ ∧
    preparedVia
      (stmtPrepareVia [(⟨true, false⟩ : StmtState)] (copyStmt ⟨0⟩) "select 42;")
      ⟨0⟩ = true :=
  copies_are_aliases [Conn.fresh, Conn.fresh] ⟨0⟩ (by decide)
    [cursor4, cursor4] ⟨0⟩ (by decide)
    [(⟨true, false⟩ : StmtState)] ⟨0⟩ "select 42;" (by decide) (by decide)

/-- C8: `affected_rows()` returns -1 whenever the backend cannot report a
row count (SELECT, DDL), and the actual affected count for INSERT and
DELETE: 1 for a single-row insert, and for DELETE the number of rows the
statement actually removed from the table. -/
theorem affected_rows_reporting (table : List Int) (v : Int) :
    affected_rows (execOp .selectAll table).2 = -1 ∧
    affected_rows (execOp .createTable table).2 = -1 ∧
    affected_rows (execOp (.insertRow v) table).2 = 1 ∧
    affected_rows (execOp .deleteAll table).2 = (table.length : Int) ∧
    (execOp (.insertRow v) table).1 = table ++ [v] ∧
    (execOp .deleteAll table).1 = [] := by
  simp [affected_rows, execOp]

/-- C9: calling `prepare(query)` on a closed statement without a connection
argument fails with `programming_error` — not with a database error, and not
with silent success. -/
theorem prepare_closed_raises_programming_error (s : StmtState) (q : String)
    (h : s.isOpen = false) :
    stmtPrepare s q = .error .programmingError ∧
    stmtPrepare s q ≠ .error .databaseError ∧
    (∀ s1, stmtPrepare s q ≠ .ok s1) := by
  refine ⟨?_, ?_, ?_⟩ <;> simp [stmtPrepare, h]

/-- Witness for C9: the exception test closes a statement and then prepares
a query on it. -/
theorem prepare_closed_raises_programming_error_witness :
    stmtPrepare ⟨false, false⟩ "select 1 from exception_test;"
      = .error .programmingError ∧
    stmtPrepare ⟨false, false⟩ "select 1 from exception_test;"
      ≠ .error .databaseError ∧
    (∀ s1, stmtPrepare ⟨false, false⟩ "select 1 from exception_test;"
      ≠ .ok s1) :=
  prepare_closed_raises_programming_error ⟨false, false⟩
    "select 1 from exception_test;" rfl

/-- C10: a statement prepared once can be executed repeatedly without
re-preparing: every one of n successive `execute()` calls succeeds and
yields a fresh result (cursor before the first row, end flag clear) whose
rows are identical to the first execution's. -/
theorem prepared_statement_reexecutes (s : PreparedQuery) (n : Nat)
    (h : s.prepared = true) :
    execSeq s n
      = List.replicate n (.ok ⟨s.planRows, ⟨s.planRows.length, 0, false⟩⟩) := by
  induction n with
  | zero => rfl
  | succ m ih => simp [execSeq, stmtExecute, h, ih, List.replicate]

/-- Witness for C10: the `select 42` statement of the execute-multiple test,
executed three times. -/
theorem prepared_statement_reexecutes_witness :
    execSeq ⟨true, [42]⟩ 3
      = List.replicate 3 (.ok ⟨[42], ⟨1, 0, false⟩⟩) :=
  prepared_statement_reexecutes ⟨true, [42]⟩ 3 rfl

end Nanodbc
